import Mathlib

/-!
# Space Invaders (turtle) — verification of the collision / tick / scoring core

A shallow embedding of the game's core logic, translated from the Python
sources under `src/space_invaders/`:

* `check_hit.py` — the collision engine (`CheckHit`);
* `shield_blocks.py` — shield blocks, damage, and the shield collision pass;
* `window.py` — the tick scheduler (`game_loop`) and bonus-life scoring
  (`update_active_player_score`);
* `aliens.py` — swarm movement, shooting, and timer-generation cancellation;
* `space_ship.py` — ship movement bounds and the fire cooldown;
* `game_specs.py` — the numeric constants.

Positions and times are modelled as rationals (`ℚ`); Python `int` fields as
`ℤ`/`ℕ`.  Python object identity (used by the collision code's `set`
membership and by "the same laser appears twice") is modelled by an explicit
`id : ℕ` field on entities.
-/

namespace SpaceInvaders

/-! ## Constants (game_specs.py) -/

def SCREEN_WIDTH : ℚ := 960
def SCREEN_HEIGHT : ℚ := 1024

/-- Wall constant `WALLS["left"]` = −960/2. -/
def WALLS_left : ℚ := -(SCREEN_WIDTH / 2)
/-- Wall constant `WALLS["right"]` = 960/2. -/
def WALLS_right : ℚ := SCREEN_WIDTH / 2
/-- Wall constant `WALLS["top"]` = 1024/2. -/
def WALLS_top : ℚ := SCREEN_HEIGHT / 2
/-- Wall constant `WALLS["bottom"]` = −1024/2. -/
def WALLS_bottom : ℚ := -(SCREEN_HEIGHT / 2)

def MAX_ENEMY_LASERS : ℕ := 1
def LASER_VELOCITY : ℚ := 10
def LIVES : ℤ := 3
def MAX_LIVES : ℤ := 5
def BONUS_LIFE_THRESHOLD : ℤ := 2000
def POINTS_PER_ENEMY : ℤ := 20

/-! ## Geometry

`turtle.distance(a, b)` is the Euclidean distance
`sqrt((ax−bx)² + (ay−by)²)`.  Every use in the sources is a comparison
`distance < t` with a threshold `t`; since the distance is nonnegative,
`distance < t ↔ 0 < t ∧ (ax−bx)² + (ay−by)² < t²`, which lets the embedding
stay inside `ℚ` and remain decidable. -/

/-- Predicate `distLt a b t` ⟺ the Euclidean distance between `a` and `b` is `< t`. -/
def distLt (a b : ℚ × ℚ) (t : ℚ) : Bool :=
  decide (0 < t ∧ (a.1 - b.1) ^ 2 + (a.2 - b.2) ^ 2 < t ^ 2)

/-! ## Entities -/

/-- A projectile (`Laser` in laser.py / `EnemyLaser` in enemy_laser.py):
position, `active` flag, turtle visibility.  `id` models Python object
identity. -/
structure Laser where
  id : ℕ
  pos : ℚ × ℚ
  active : Bool
  visible : Bool
  deriving DecidableEq, Repr

/-- A turtle-based collision target (ship, alien or boss) as seen by
`CheckHit.check_lasers_vs_targets`: only its position and identity matter
there.  `id` models Python object identity (the `hit_targets` set holds
objects by identity). -/
structure Target where
  id : ℕ
  pos : ℚ × ℚ
  deriving DecidableEq, Repr

/-! ## Collision engine (check_hit.py) -/

namespace CheckHit

/-- Inner loop of `check_lasers_vs_targets` (check_hit.py lines 35–42):
scan `targets` in list order, skipping targets whose identity is already in
the consumed set `hit`, and return the first remaining target with
`target.distance(laser) < threshold`, if any. -/
def scanTargets (laser : Laser) (targets : List Target) (hit : List ℕ)
    (threshold : ℚ) : Option Target :=
  match targets with
  | [] => none
  | t :: rest =>
      if t.id ∈ hit then
        scanTargets laser rest hit threshold
      else if distLt t.pos laser.pos threshold then
        some t
      else
        scanTargets laser rest hit threshold

/-- Outer loop of `check_lasers_vs_targets` (check_hit.py lines 28–44),
with the running consumed set `hit` made explicit.  Inactive lasers are
skipped; an active laser contributes at most one pair (`break` after the
first match) and its matched target's identity is added to `hit`. -/
def clvtAux (lasers : List Laser) (targets : List Target) (hit : List ℕ)
    (threshold : ℚ) : List (Laser × Target) :=
  match lasers with
  | [] => []
  | l :: rest =>
      if l.active then
        match scanTargets l targets hit threshold with
        | some t => (l, t) :: clvtAux rest targets (t.id :: hit) threshold
        | none => clvtAux rest targets hit threshold
      else
        clvtAux rest targets hit threshold

/-- Embedding of `CheckHit.check_lasers_vs_targets(lasers, targets, threshold)`
(check_hit.py lines 16–44). -/
def check_lasers_vs_targets (lasers : List Laser) (targets : List Target)
    (threshold : ℚ) : List (Laser × Target) :=
  clvtAux lasers targets [] threshold

/-- Inner loop of `check_laser_vs_laser` (check_hit.py lines 63–70): scan
enemy lasers in list order; skip inactive ones; return the first active one
within distance 10 of the player laser.  There is no consumed set here. -/
def scanEnemyLasers (pLaser : Laser) (enemies : List Laser) : Option Laser :=
  match enemies with
  | [] => none
  | e :: rest =>
      if e.active then
        if distLt pLaser.pos e.pos 10 then some e
        else scanEnemyLasers pLaser rest
      else
        scanEnemyLasers pLaser rest

/-- Embedding of `CheckHit.check_laser_vs_laser(player_lasers, enemy_lasers)`
(check_hit.py lines 46–72).  Each active player laser pairs with the first
active enemy laser within 10 units (`break`); nothing marks an enemy laser
as consumed across player lasers. -/
def check_laser_vs_laser (player_lasers enemy_lasers : List Laser) :
    List (Laser × Laser) :=
  match player_lasers with
  | [] => []
  | p :: rest =>
      if p.active then
        match scanEnemyLasers p enemy_lasers with
        | some e => (p, e) :: check_laser_vs_laser rest enemy_lasers
        | none => check_laser_vs_laser rest enemy_lasers
      else
        check_laser_vs_laser rest enemy_lasers

end CheckHit

/-! ## Shield blocks (shield_blocks.py) -/

/-- The turtle colors a shield block takes on. -/
inductive BlockColor where
  | green
  | yellow
  | red
  deriving DecidableEq, Repr

/-- A `ShieldBlock` (shield_blocks.py lines 6–65): position, `active` flag,
hit points, current color, turtle visibility. -/
structure ShieldBlock where
  pos : ℚ × ℚ
  active : Bool
  hp : ℤ
  color : BlockColor
  visible : Bool
  deriving DecidableEq, Repr

namespace ShieldBlock

/-- Embedding of `ShieldBlock.__init__` (lines 14–39): green, visible, active, hp = 3. -/
def init (pos : ℚ × ℚ) : ShieldBlock :=
  { pos := pos, active := true, hp := 3, color := .green, visible := true }

/-- Embedding of `ShieldBlock.take_damage` (lines 41–65): decrement hp, then recolor by
the new hp (`elif` chain); at hp ≤ 0 the block becomes inactive and is
hidden. -/
def take_damage (b : ShieldBlock) : ShieldBlock :=
  let b := { b with hp := b.hp - 1 }
  if b.hp = 2 then { b with color := .yellow }
  else if b.hp = 1 then { b with color := .red }
  else if b.hp ≤ 0 then { b with active := false, visible := false }
  else b

end ShieldBlock

namespace ShieldGenerator

/-- Inner loop of `ShieldGenerator.check_collision` (shield_blocks.py lines
181–186) for one laser: walk the block list in order; at each *active* block
within 15 units the block takes damage and the laser is deactivated and
hidden.  The laser's own `active` flag is never consulted, and there is no
`break`: the scan continues through the remaining blocks. -/
def passBlocks (laser : Laser) (blocks : List ShieldBlock) :
    List ShieldBlock × Laser :=
  match blocks with
  | [] => ([], laser)
  | b :: rest =>
      if b.active && distLt laser.pos b.pos 15 then
        let b' := b.take_damage
        let laser' := { laser with active := false, visible := false }
        let (rest', laser'') := passBlocks laser' rest
        (b' :: rest', laser'')
      else
        let (rest', laser') := passBlocks laser rest
        (b :: rest', laser')

/-- Embedding of `ShieldGenerator.check_collision(lasers)` (shield_blocks.py lines
170–186): laser-major double loop over the mutable block list. -/
def check_collision (blocks : List ShieldBlock) (lasers : List Laser) :
    List ShieldBlock × List Laser :=
  match lasers with
  | [] => (blocks, [])
  | l :: rest =>
      let (blocks', l') := passBlocks l blocks
      let (blocks'', rest') := check_collision blocks' rest
      (blocks'', l' :: rest')

end ShieldGenerator

/-! ## Tick scheduler (window.py `ScreenGame.game_loop`, lines 213–250) -/

/-- What one `game_loop` invocation did. -/
structure TickOutcome where
  /-- Whether `self.screen.ontimer(self.game_loop, 20)` was reached. -/
  rescheduled : Bool
  /-- Whether the tick body ran to completion. -/
  bodyCompleted : Bool
  deriving DecidableEq, Repr

/-- Control flow of `ScreenGame.game_loop` (window.py lines 226–250): the
body runs only when not paused and the canvas still exists; the body is
wrapped in `try ... except turtle.TurtleGraphicsError: return`, and the
`ontimer` rearm sits *after* the `if`, outside the `try`.  `bodyRaises`
models a `TurtleGraphicsError` escaping from the body. -/
def game_loop (paused canvasExists bodyRaises : Bool) : TickOutcome :=
  if !paused && canvasExists then
    if bodyRaises then
      { rescheduled := false, bodyCompleted := false }
    else
      { rescheduled := true, bodyCompleted := true }
  else
    { rescheduled := true, bodyCompleted := false }

/-! ## Scoring (window.py `ScreenGame.update_active_player_score`,
lines 482–525) -/

/-- The score-relevant fields of a `SpaceShip` (space_ship.py lines 52–55). -/
structure ShipScore where
  score : ℤ
  points_since_last_life : ℤ
  lives : ℤ
  deriving DecidableEq, Repr

/-- Embedding of `ScreenGame.update_active_player_score` (window.py lines 482–525),
restricted to the ship-state fields it mutates: add `POINTS_PER_ENEMY` to
the score and to `points_since_last_life`; then, if the counter has reached
`BONUS_LIFE_THRESHOLD` *and* `lives < MAX_LIVES`, grant one life and reset
the counter to 0. -/
def update_active_player_score (s : ShipScore) : ShipScore :=
  let s := { s with
    score := s.score + POINTS_PER_ENEMY,
    points_since_last_life := s.points_since_last_life + POINTS_PER_ENEMY }
  if BONUS_LIFE_THRESHOLD ≤ s.points_since_last_life then
    if s.lives < MAX_LIVES then
      { s with lives := s.lives + 1, points_since_last_life := 0 }
    else s
  else s

/-! ## Alien swarm (aliens.py) -/

/-- The swarm state (`Aliens.__init__`, aliens.py lines 17–52): running
flag, direction (±1), step sizes, the two timer-generation counters, alien
positions, and the enemy-laser list.  `next_laser_id` supplies fresh
identities for lasers created by `alien_shoot`. -/
structure AliensState where
  is_running : Bool
  direction : ℚ
  step_x : ℚ
  step_y : ℚ
  movement_timer_id : ℕ
  shooting_timer_id : ℕ
  aliens : List (ℚ × ℚ)
  enemy_lasers : List Laser
  next_laser_id : ℕ
  deriving DecidableEq, Repr

namespace Aliens

/-- Embedding of `Aliens.move_aliens` (aliens.py lines 104–132): no-op unless running
and non-empty; translate every alien horizontally by
`step_x * direction`; if any alien's *new* x is `> right − 40` or
`< left + 40`, flip the direction and move every alien down by `step_y`. -/
def move_aliens (s : AliensState) : AliensState :=
  if !s.is_running || s.aliens = [] then s
  else
    let moved := s.aliens.map fun p => (p.1 + s.step_x * s.direction, p.2)
    let should_descend := moved.any fun p =>
      decide (WALLS_right - 40 < p.1) || decide (p.1 < WALLS_left + 40)
    if should_descend then
      { s with
        direction := s.direction * (-1),
        aliens := moved.map fun p => (p.1, p.2 - s.step_y) }
    else
      { s with aliens := moved }

/-- A repeating callback armed through `screen.ontimer`, tagged with the
timer-generation id it captured when armed (aliens.py lines 144, 170). -/
inductive ArmedTimer where
  | movement (capturedId : ℕ)
  | shooting (capturedId : ℕ)
  deriving DecidableEq, Repr

/-- Embedding of `Aliens.start_movement_loop` (aliens.py lines 134–157): early-out when
not running; capture `movement_timer_id`; run `move_aliens` if the id is
unchanged (trivially true at this point); arm the next movement callback
carrying the captured id. -/
def start_movement_loop (s : AliensState) : AliensState × List ArmedTimer :=
  if !s.is_running then (s, [])
  else
    let current_id := s.movement_timer_id
    let s' := if s.movement_timer_id = current_id then move_aliens s else s
    (s', [.movement current_id])

/-- Embedding of `Aliens.alien_shoot` (aliens.py lines 159–185): early-out when not
running; if the live enemy-laser count is below `MAX_ENEMY_LASERS` and the
swarm is non-empty, fire from a random alien with probability
`shooting_chance`; then arm the next shooting callback carrying the
captured `shooting_timer_id`.  The two random draws are passed in as the
oracle arguments `shoots` (did `random() < shooting_chance` succeed) and
`shooterIdx` (which alien `choice` picked). -/
def alien_shoot (s : AliensState) (shoots : Bool) (shooterIdx : ℕ) :
    AliensState × List ArmedTimer :=
  if !s.is_running then (s, [])
  else
    let current_id := s.shooting_timer_id
    let s' :=
      if s.enemy_lasers.length < MAX_ENEMY_LASERS ∧ s.aliens ≠ [] ∧
          shoots = true then
        let shooter := s.aliens.getD (shooterIdx % s.aliens.length) (0, 0)
        let laser : Laser :=
          { id := s.next_laser_id, pos := shooter, active := true,
            visible := true }
        { s with enemy_lasers := s.enemy_lasers ++ [laser],
                 next_laser_id := s.next_laser_id + 1 }
      else s
    (s', [.shooting current_id])

/-- Firing a previously-armed movement callback (the closure `callback` in
`start_movement_loop`, aliens.py lines 146–149): it re-enters
`start_movement_loop` only if the swarm is running *and* the generation id
it captured still matches; otherwise it does nothing and arms nothing. -/
def fire_movement_callback (s : AliensState) (capturedId : ℕ) :
    AliensState × List ArmedTimer :=
  if s.is_running = true ∧ s.movement_timer_id = capturedId then
    start_movement_loop s
  else (s, [])

/-- Firing a previously-armed shooting callback (the closure `callback` in
`alien_shoot`, aliens.py lines 179–181): it re-enters `alien_shoot` only if
the swarm is running *and* the captured generation id still matches. -/
def fire_shooting_callback (s : AliensState) (capturedId : ℕ)
    (shoots : Bool) (shooterIdx : ℕ) : AliensState × List ArmedTimer :=
  if s.is_running = true ∧ s.shooting_timer_id = capturedId then
    alien_shoot s shoots shooterIdx
  else (s, [])

/-- Embedding of `Aliens.cancel_timers` (aliens.py lines 282–289): stop the loops by
clearing the running flag and bumping both generation counters. -/
def cancel_timers (s : AliensState) : AliensState :=
  { s with
    is_running := false,
    movement_timer_id := s.movement_timer_id + 1,
    shooting_timer_id := s.shooting_timer_id + 1 }

end Aliens

/-! ## Player ship (space_ship.py) -/

/-- The ship state relevant to movement and firing (`SpaceShip.__init__`,
space_ship.py lines 13–60). -/
structure SpaceShipState where
  pos : ℚ × ℚ
  ship_width : ℚ
  ship_height : ℚ
  lasers : List Laser
  last_shot_time : ℚ
  shot_cooldown : ℚ
  next_laser_id : ℕ
  deriving DecidableEq, Repr

namespace SpaceShip

/-- Embedding of `SpaceShip.go_right` (space_ship.py lines 92–100): step 20 to the
right unless the new x would pass `WALLS["right"] − ship_width/2`. -/
def go_right (s : SpaceShipState) : SpaceShipState :=
  let new_x := s.pos.1 + 20
  if new_x ≤ WALLS_right - s.ship_width / 2 then
    { s with pos := (new_x, s.pos.2) }
  else s

/-- Embedding of `SpaceShip.go_left` (space_ship.py lines 102–110): step 20 to the left
unless the new x would pass `WALLS["left"] + ship_width/2`. -/
def go_left (s : SpaceShipState) : SpaceShipState :=
  let new_x := s.pos.1 - 20
  if WALLS_left + s.ship_width / 2 ≤ new_x then
    { s with pos := (new_x, s.pos.2) }
  else s

/-- One keyboard-driven step of the ship. -/
inductive ShipMove where
  | right
  | left
  deriving DecidableEq, Repr

/-- A sequence of `go_right`/`go_left` calls, applied left to right. -/
def apply_moves (s : SpaceShipState) (ms : List ShipMove) : SpaceShipState :=
  ms.foldl (fun s m => match m with | .right => go_right s | .left => go_left s) s

/-- Embedding of `SpaceShip.fire` (space_ship.py lines 132–147) at wall-clock time
`now`: fire iff no laser in the list is active, or at least
`shot_cooldown` seconds have elapsed since `last_shot_time`.  On firing,
record the shot time and append a fresh active laser just above the
ship. -/
def fire (s : SpaceShipState) (now : ℚ) : SpaceShipState :=
  if (!s.lasers.any (·.active)) || decide (s.shot_cooldown ≤ now - s.last_shot_time) then
    let laser : Laser :=
      { id := s.next_laser_id,
        pos := (s.pos.1, s.pos.2 + s.ship_height / 2 + 20),
        active := true, visible := true }
    { s with last_shot_time := now,
             lasers := s.lasers ++ [laser],
             next_laser_id := s.next_laser_id + 1 }
  else s

end SpaceShip

/-! ## Specification predicates

Properties the collision-engine theorems are stated with. -/

/-- Target `t` is the first target of `ts`, in list order, that is not yet in the
consumed set and lies within distance `th` of laser `l`: every target
before it is consumed or out of range. -/
def IsFirstMatch (l : Laser) (ts : List Target) (consumed : List ℕ)
    (th : ℚ) (t : Target) : Prop :=
  ∃ pre post, ts = pre ++ t :: post ∧ t.id ∉ consumed ∧
    distLt t.pos l.pos th = true ∧
    ∀ u ∈ pre, u.id ∈ consumed ∨ distLt u.pos l.pos th = false

/-- Laser `e` is the first enemy laser of `es`, in list order, that is active and
within 10 units of player laser `p`: every enemy laser before it is
inactive or out of range. -/
def IsFirstEnemyHit (p : Laser) (es : List Laser) (e : Laser) : Prop :=
  ∃ pre post, es = pre ++ e :: post ∧ e.active = true ∧
    distLt p.pos e.pos 10 = true ∧
    ∀ u ∈ pre, u.active = false ∨ distLt p.pos u.pos 10 = false

/-- The color a shield block displays as a function of its hp along the
damage trajectory (shield_blocks.py lines 31, 57–61): 3 → green,
2 → yellow, otherwise red. -/
def tierColorOfHp (hp : ℤ) : BlockColor :=
  if 3 ≤ hp then .green else if hp = 2 then .yellow else .red

/-- The visibility a shield block has as a function of its hp: visible
while hp ≥ 1, hidden at hp ≤ 0 (shield_blocks.py lines 63–65). -/
def tierVisibleOfHp (hp : ℤ) : Bool :=
  decide (1 ≤ hp)

/-! # Theorems -/

set_option maxRecDepth 20000

/-- Claim C4, counterexample.  The claim says every `game_loop` invocation
reschedules itself, in particular when the tick body aborts on a render
error.  At the concrete input "not paused, canvas exists, body raises
`TurtleGraphicsError`" the `return` in the `except` arm (window.py line
248) is taken before the `ontimer` call on line 250, so the loop is *not*
rescheduled. -/
theorem C4_counterexample_render_error_stops_loop :
    (game_loop false true true).rescheduled = false := rfl

/-- Claim C4, amended.  Every `game_loop` invocation whose body does not
raise reschedules itself, and a paused invocation always reschedules
(pausing only skips the body); but the reschedule is skipped exactly when
an unpaused frame with a live canvas has its body raise a
`TurtleGraphicsError` — a render error mid-body stops the loop for good
rather than only aborting that frame. -/
theorem C4_reschedule_amended :
    (∀ paused canvasExists,
      (game_loop paused canvasExists false).rescheduled = true) ∧
    (∀ canvasExists bodyRaises,
      (game_loop true canvasExists bodyRaises).rescheduled = true) ∧
    (∀ paused canvasExists bodyRaises,
      ((game_loop paused canvasExists bodyRaises).rescheduled = false ↔
        paused = false ∧ canvasExists = true ∧ bodyRaises = true)) := by
  refine ⟨?_, ?_, ?_⟩ <;> decide

/-- Claim C8.  After `cancel_timers`, firing a previously-armed movement or
shooting callback — whatever generation id it captured, and whatever the
random draws would have been — leaves the swarm state exactly as
`cancel_timers` left it: no alien moves, no direction flip, no enemy laser
is appended, and no new timer is armed. -/
theorem C8_stale_timer_idempotent (s : AliensState) (capturedId : ℕ)
    (shoots : Bool) (shooterIdx : ℕ) :
    Aliens.fire_movement_callback (Aliens.cancel_timers s) capturedId =
      (Aliens.cancel_timers s, []) ∧
    Aliens.fire_shooting_callback (Aliens.cancel_timers s) capturedId
        shoots shooterIdx =
      (Aliens.cancel_timers s, []) := by
  constructor <;>
    simp [Aliens.fire_movement_callback, Aliens.fire_shooting_callback,
      Aliens.cancel_timers]

/-- Claim C9.  With `shot_cooldown = 1.5` and no active laser in the list, a
`fire` at time `t` creates one laser, and a second `fire` at `t + 0.1`
(while that laser is still active) changes nothing, so exactly one active
laser exists after both calls. -/
theorem C9_cooldown_blocks_second_shot (s : SpaceShipState) (t : ℚ)
    (hcd : s.shot_cooldown = 3 / 2)
    (hq : s.lasers.any (·.active) = false) :
    SpaceShip.fire (SpaceShip.fire s t) (t + 1 / 10) = SpaceShip.fire s t ∧
    (SpaceShip.fire s t).lasers.length = s.lasers.length + 1 ∧
    (SpaceShip.fire (SpaceShip.fire s t) (t + 1 / 10)).lasers.countP
      (·.active) = 1 := by
  have e1 : SpaceShip.fire s t
      = { s with last_shot_time := t,
                 lasers := s.lasers ++
                   [⟨s.next_laser_id,
                     (s.pos.1, s.pos.2 + s.ship_height / 2 + 20),
                     true, true⟩],
                 next_laser_id := s.next_laser_id + 1 } := by
    rw [SpaceShip.fire, hq]
    rfl
  have hany : (SpaceShip.fire s t).lasers.any (·.active) = true := by
    rw [e1]
    simp
  have hlt : decide ((SpaceShip.fire s t).shot_cooldown ≤
      (t + 1 / 10) - (SpaceShip.fire s t).last_shot_time) = false := by
    rw [e1]
    simp only [decide_eq_false_iff_not, not_le]
    rw [hcd]
    have harith : t + 1 / 10 - t = (1 / 10 : ℚ) := by ring
    rw [harith]
    norm_num
  have e3 : SpaceShip.fire (SpaceShip.fire s t) (t + 1 / 10) =
      SpaceShip.fire s t := by
    conv_lhs => rw [SpaceShip.fire]
    rw [hany, hlt]
    rfl
  have h0 : s.lasers.countP (·.active) = 0 := by
    rw [List.countP_eq_zero]
    intro a ha
    exact (List.any_eq_false.mp hq) a ha
  refine ⟨e3, ?_, ?_⟩
  · rw [e1]
    simp
  · rw [e3, e1]
    simp [List.countP_append, h0]

/-- Claim C9 witness at a fresh ship with cooldown `3/2` firing at times `2`
and `2 + 1/10`. -/
theorem C9_witness :
    SpaceShip.fire
        (SpaceShip.fire ⟨(0, -358), 576/5, 384/25, [], 0, 3/2, 0⟩ 2)
        (2 + 1 / 10) =
      SpaceShip.fire ⟨(0, -358), 576/5, 384/25, [], 0, 3/2, 0⟩ 2 ∧
    (SpaceShip.fire ⟨(0, -358), 576/5, 384/25, [], 0, 3/2, 0⟩ 2).lasers.length
      = ([] : List Laser).length + 1 ∧
    (SpaceShip.fire
        (SpaceShip.fire ⟨(0, -358), 576/5, 384/25, [], 0, 3/2, 0⟩ 2)
        (2 + 1 / 10)).lasers.countP (·.active) = 1 :=
  C9_cooldown_blocks_second_shot ⟨(0, -358), 576/5, 384/25, [], 0, 3/2, 0⟩ 2
    rfl rfl

/-- Method `go_right` never changes the ship's width. -/
theorem go_right_ship_width (s : SpaceShipState) :
    (SpaceShip.go_right s).ship_width = s.ship_width := by
  rw [SpaceShip.go_right]
  split <;> rfl

/-- Method `go_left` never changes the ship's width. -/
theorem go_left_ship_width (s : SpaceShipState) :
    (SpaceShip.go_left s).ship_width = s.ship_width := by
  rw [SpaceShip.go_left]
  split <;> rfl

/-- One `go_right` keeps an in-bounds ship in bounds. -/
theorem go_right_bound (s : SpaceShipState)
    (h : WALLS_left + s.ship_width / 2 ≤ s.pos.1 ∧
      s.pos.1 ≤ WALLS_right - s.ship_width / 2) :
    WALLS_left + s.ship_width / 2 ≤ (SpaceShip.go_right s).pos.1 ∧
    (SpaceShip.go_right s).pos.1 ≤ WALLS_right - s.ship_width / 2 := by
  rw [SpaceShip.go_right]
  split
  · rename_i hle
    exact ⟨by simp only []; linarith [h.1], by simpa using hle⟩
  · exact h

/-- One `go_left` keeps an in-bounds ship in bounds. -/
theorem go_left_bound (s : SpaceShipState)
    (h : WALLS_left + s.ship_width / 2 ≤ s.pos.1 ∧
      s.pos.1 ≤ WALLS_right - s.ship_width / 2) :
    WALLS_left + s.ship_width / 2 ≤ (SpaceShip.go_left s).pos.1 ∧
    (SpaceShip.go_left s).pos.1 ≤ WALLS_right - s.ship_width / 2 := by
  rw [SpaceShip.go_left]
  split
  · rename_i hle
    exact ⟨by simpa using hle, by simp only []; linarith [h.2]⟩
  · exact h

/-- Claim C10.  Starting from an x-position within
`[left wall + ship_width/2, right wall − ship_width/2]`, the ship's
x-position stays in that interval after any sequence of `go_right` /
`go_left` calls: a 20-unit step that would leave the interval is not
taken. -/
theorem C10_ship_stays_in_bounds (s : SpaceShipState)
    (h : WALLS_left + s.ship_width / 2 ≤ s.pos.1 ∧
      s.pos.1 ≤ WALLS_right - s.ship_width / 2)
    (ms : List SpaceShip.ShipMove) :
    WALLS_left + s.ship_width / 2 ≤ (SpaceShip.apply_moves s ms).pos.1 ∧
    (SpaceShip.apply_moves s ms).pos.1 ≤ WALLS_right - s.ship_width / 2 := by
  induction ms generalizing s with
  | nil => exact h
  | cons m rest ih =>
    cases m with
    | right =>
      have hstep := go_right_bound s h
      have hw := go_right_ship_width s
      have := ih (SpaceShip.go_right s) (by rw [hw]; exact hstep)
      rw [hw] at this
      exact this
    | left =>
      have hstep := go_left_bound s h
      have hw := go_left_ship_width s
      have := ih (SpaceShip.go_left s) (by rw [hw]; exact hstep)
      rw [hw] at this
      exact this

/-- Claim C10 witness at a centered ship of width `576/5` taking three
steps. -/
theorem C10_witness :
    WALLS_left + (576/5 : ℚ) / 2 ≤
      (SpaceShip.apply_moves ⟨(0, -358), 576/5, 384/25, [], 0, 3/2, 0⟩
        [.right, .right, .left]).pos.1 ∧
    (SpaceShip.apply_moves ⟨(0, -358), 576/5, 384/25, [], 0, 3/2, 0⟩
        [.right, .right, .left]).pos.1 ≤ WALLS_right - (576/5 : ℚ) / 2 :=
  C10_ship_stays_in_bounds ⟨(0, -358), 576/5, 384/25, [], 0, 3/2, 0⟩
    (by constructor <;> norm_num [WALLS_left, WALLS_right, SCREEN_WIDTH])
    [.right, .right, .left]

/-- After 100 score updates from a fresh ship, one bonus life has been
granted and the counter is back at 0. -/
theorem score_after_100 :
    update_active_player_score^[100] ⟨0, 0, 3⟩ = ⟨2000, 0, 4⟩ := by decide

/-- After 100 further updates a second bonus life brings the ship to the
cap of 5 lives. -/
theorem score_after_200 :
    update_active_player_score^[100] ⟨2000, 0, 4⟩ = ⟨4000, 0, 5⟩ := by decide

/-- Ninety-nine further updates at the life cap accumulate 1980 counter points with
no grant. -/
theorem score_after_299 :
    update_active_player_score^[99] ⟨4000, 0, 5⟩ = ⟨5980, 1980, 5⟩ := by
  decide

/-- The state reached after 299 score updates from a fresh ship. -/
theorem score_iterate_299 :
    update_active_player_score^[299] ⟨0, 0, 3⟩ = ⟨5980, 1980, 5⟩ := by
  have h : (299 : ℕ) = 99 + (100 + 100) := rfl
  rw [h, Function.iterate_add_apply, Function.iterate_add_apply,
    score_after_100, score_after_200, score_after_299]

/-- Claim C5, counterexample.  Run 300 score updates on a fresh ship
(`score = 0`, counter `0`, `lives = LIVES = 3`).  Update 300 carries the
counter from 1980 across the 2000-point threshold, yet — the ship already
holding the 5-life cap — no bonus life is granted and the counter is left
at 2000 instead of being reset, so a bonus life is *not* granted "exactly
once per full crossing". -/
theorem C5_counterexample_crossing_at_cap :
    (update_active_player_score^[299] ⟨0, 0, 3⟩).points_since_last_life <
      BONUS_LIFE_THRESHOLD ∧
    BONUS_LIFE_THRESHOLD ≤
      (update_active_player_score^[300] ⟨0, 0, 3⟩).points_since_last_life ∧
    (update_active_player_score^[300] ⟨0, 0, 3⟩).lives =
      (update_active_player_score^[299] ⟨0, 0, 3⟩).lives ∧
    (update_active_player_score^[300] ⟨0, 0, 3⟩).points_since_last_life
      ≠ 0 := by
  have h300 : update_active_player_score^[300] ⟨0, 0, 3⟩ =
      ⟨6000, 2000, 5⟩ := by
    have h : (300 : ℕ) = 1 + 299 := rfl
    rw [h, Function.iterate_add_apply, score_iterate_299]
    decide
  rw [h300, score_iterate_299]
  decide

/-- Claim C5, amended.  At every score update the counter and score grow by
`POINTS_PER_ENEMY`; a bonus life is granted *exactly when* the incremented
counter has reached the 2000-point threshold while lives are below the cap
of 5, in which case the counter is reset to exactly 0; lives never exceed
5 along any update sequence.  (A crossing that happens while the ship
holds 5 lives grants nothing and leaves the counter accumulated — the
grant is deferred, not matched one-to-one with crossings.) -/
theorem C5_bonus_life_amended (s : ShipScore) (h : s.lives ≤ MAX_LIVES) :
    (∀ n, (update_active_player_score^[n] s).lives ≤ MAX_LIVES) ∧
    ((update_active_player_score s).lives = s.lives + 1 ↔
      BONUS_LIFE_THRESHOLD ≤ s.points_since_last_life + POINTS_PER_ENEMY ∧
        s.lives < MAX_LIVES) ∧
    ((update_active_player_score s).lives = s.lives + 1 →
      (update_active_player_score s).points_since_last_life = 0) ∧
    ((update_active_player_score s).lives = s.lives + 1 ∨
      (update_active_player_score s).lives = s.lives) := by
  have hstep : ∀ u : ShipScore, u.lives ≤ MAX_LIVES →
      (update_active_player_score u).lives ≤ MAX_LIVES := by
    intro u hu
    rw [update_active_player_score]
    split
    · split
      · rename_i hlt
        show u.lives + 1 ≤ MAX_LIVES
        have hlt' : u.lives < MAX_LIVES := hlt
        omega
      · exact hu
    · exact hu
  refine ⟨?_, ?_, ?_, ?_⟩
  · intro n
    induction n with
    | zero => exact h
    | succ k ihk =>
      rw [Function.iterate_succ_apply']
      exact hstep _ ihk
  · simp only [update_active_player_score]
    split_ifs with h1 h2
    · constructor
      · intro _
        exact ⟨h1, h2⟩
      · intro _
        rfl
    · constructor
      · intro hgr
        exfalso
        have h' : s.lives = s.lives + 1 := hgr
        omega
      · rintro ⟨hth, hlt⟩
        exact absurd hlt h2
    · constructor
      · intro hgr
        exfalso
        have h' : s.lives = s.lives + 1 := hgr
        omega
      · rintro ⟨hth, hlt⟩
        exact absurd hth h1
  · simp only [update_active_player_score]
    split_ifs with h1 h2
    · intro _
      rfl
    · intro hgr
      exfalso
      have h' : s.lives = s.lives + 1 := hgr
      omega
    · intro hgr
      exfalso
      have h' : s.lives = s.lives + 1 := hgr
      omega
  · simp only [update_active_player_score]
    split_ifs with h1 h2
    · exact Or.inl rfl
    · exact Or.inr rfl
    · exact Or.inr rfl

/-- Claim C5 witness: a ship at 3 lives with 1980 accumulated points gets
the bonus life on the next update and its counter resets to exactly 0. -/
theorem C5_witness :
    (update_active_player_score ⟨5980, 1980, 3⟩).lives = 3 + 1 ∧
    (update_active_player_score ⟨5980, 1980, 3⟩).points_since_last_life
      = 0 := by
  have h := C5_bonus_life_amended ⟨5980, 1980, 3⟩ (by decide)
  have hgr := h.2.1.mpr (by decide)
  exact ⟨hgr, h.2.2.1 hgr⟩

/-- One `take_damage` on a fresh block: hp 2, yellow. -/
theorem take_damage_1 (p : ℚ × ℚ) :
    ShieldBlock.take_damage^[1] (ShieldBlock.init p) =
      ⟨p, true, 2, .yellow, true⟩ := rfl

/-- Two hits on a fresh block: hp 1, red. -/
theorem take_damage_2 (p : ℚ × ℚ) :
    ShieldBlock.take_damage^[2] (ShieldBlock.init p) =
      ⟨p, true, 1, .red, true⟩ := rfl

/-- Three hits on a fresh block: hp 0, inactive, hidden. -/
theorem take_damage_3 (p : ℚ × ℚ) :
    ShieldBlock.take_damage^[3] (ShieldBlock.init p) =
      ⟨p, false, 0, .red, false⟩ := rfl

/-- Claim C7.  For a fresh shield block, after `N` `take_damage` calls each
made while the block was still active: hp equals `max 0 (3 − N)`; the
block is inactive exactly when hp has reached 0; each hit decreased hp by
exactly 1; and the color and visibility are the pure functions
`tierColorOfHp` / `tierVisibleOfHp` of the current hp. -/
theorem C7_shield_block_damage (p : ℚ × ℚ) (N : ℕ)
    (hact : ∀ i < N,
      (ShieldBlock.take_damage^[i] (ShieldBlock.init p)).active = true) :
    (ShieldBlock.take_damage^[N] (ShieldBlock.init p)).hp =
      max 0 (3 - (N : ℤ)) ∧
    ((ShieldBlock.take_damage^[N] (ShieldBlock.init p)).active = false ↔
      (ShieldBlock.take_damage^[N] (ShieldBlock.init p)).hp = 0) ∧
    (∀ i < N,
      (ShieldBlock.take_damage^[i + 1] (ShieldBlock.init p)).hp =
        (ShieldBlock.take_damage^[i] (ShieldBlock.init p)).hp - 1) ∧
    (ShieldBlock.take_damage^[N] (ShieldBlock.init p)).color =
      tierColorOfHp
        ((ShieldBlock.take_damage^[N] (ShieldBlock.init p)).hp) ∧
    (ShieldBlock.take_damage^[N] (ShieldBlock.init p)).visible =
      tierVisibleOfHp
        ((ShieldBlock.take_damage^[N] (ShieldBlock.init p)).hp) := by
  have hN : N ≤ 3 := by
    by_contra hgt
    have h3 := hact 3 (by omega)
    rw [take_damage_3] at h3
    exact Bool.false_ne_true h3
  interval_cases N
  · refine ⟨by norm_num [ShieldBlock.init], ?_, ?_, ?_, ?_⟩
    · simp [ShieldBlock.init]
    · intro i hi
      omega
    · rfl
    · rfl
  · refine ⟨by rw [take_damage_1]; norm_num, ?_, ?_, ?_, ?_⟩
    · rw [take_damage_1]
      simp
    · intro i hi
      interval_cases i
      rw [take_damage_1]
      rfl
    · rw [take_damage_1]
      rfl
    · rw [take_damage_1]
      rfl
  · refine ⟨by rw [take_damage_2]; norm_num, ?_, ?_, ?_, ?_⟩
    · rw [take_damage_2]
      simp
    · intro i hi
      interval_cases i
      · rw [take_damage_1]
        rfl
      · rw [take_damage_2, take_damage_1]
        rfl
    · rw [take_damage_2]
      rfl
    · rw [take_damage_2]
      rfl
  · refine ⟨by rw [take_damage_3]; norm_num, ?_, ?_, ?_, ?_⟩
    · rw [take_damage_3]
      simp
    · intro i hi
      interval_cases i
      · rw [take_damage_1]
        rfl
      · rw [take_damage_2, take_damage_1]
        rfl
      · rw [take_damage_3, take_damage_2]
        rfl
    · rw [take_damage_3]
      rfl
    · rw [take_damage_3]
      rfl

/-- Claim C7 witness at `p = (0, 0)`, `N = 2`. -/
theorem C7_witness :
    (ShieldBlock.take_damage^[2] (ShieldBlock.init (0, 0))).hp =
      max 0 (3 - (2 : ℤ)) ∧
    ((ShieldBlock.take_damage^[2] (ShieldBlock.init (0, 0))).active = false ↔
      (ShieldBlock.take_damage^[2] (ShieldBlock.init (0, 0))).hp = 0) ∧
    (∀ i < 2,
      (ShieldBlock.take_damage^[i + 1] (ShieldBlock.init (0, 0))).hp =
        (ShieldBlock.take_damage^[i] (ShieldBlock.init (0, 0))).hp - 1) ∧
    (ShieldBlock.take_damage^[2] (ShieldBlock.init (0, 0))).color =
      tierColorOfHp
        ((ShieldBlock.take_damage^[2] (ShieldBlock.init (0, 0))).hp) ∧
    (ShieldBlock.take_damage^[2] (ShieldBlock.init (0, 0))).visible =
      tierVisibleOfHp
        ((ShieldBlock.take_damage^[2] (ShieldBlock.init (0, 0))).hp) :=
  C7_shield_block_damage (0, 0) 2 (by
    intro i hi
    interval_cases i
    · rfl
    · rfl)

/-- Claim C6.  On a running, non-empty swarm, `move_aliens` translates every
alien by one and the same `(dx, dy)` vector — `dx = step_x * direction`,
`dy = -step_y` on a descent step and `0` otherwise — and the direction
flips if and only if at least one alien's *new* x-coordinate exceeds
`WALLS["right"] − 40` or falls below `WALLS["left"] + 40`. -/
theorem C6_swarm_lockstep (s : AliensState) (hrun : s.is_running = true)
    (hne : s.aliens ≠ []) (hdir : s.direction ≠ 0) :
    (Aliens.move_aliens s).aliens = s.aliens.map
      (fun p => (p.1 + s.step_x * s.direction,
        p.2 + (if s.aliens.any fun p =>
            decide (WALLS_right - 40 < p.1 + s.step_x * s.direction) ||
            decide (p.1 + s.step_x * s.direction < WALLS_left + 40)
          then -s.step_y else 0))) ∧
    (Aliens.move_aliens s).direction =
      (if s.aliens.any fun p =>
          decide (WALLS_right - 40 < p.1 + s.step_x * s.direction) ||
          decide (p.1 + s.step_x * s.direction < WALLS_left + 40)
        then -s.direction else s.direction) ∧
    (((Aliens.move_aliens s).direction ≠ s.direction) ↔
      (s.aliens.any fun p =>
          decide (WALLS_right - 40 < p.1 + s.step_x * s.direction) ||
          decide (p.1 + s.step_x * s.direction < WALLS_left + 40)) = true) := by
  rw [Aliens.move_aliens]
  rw [hrun]
  simp only [Bool.not_true, Bool.false_or]
  rw [if_neg (by simpa using hne)]
  have hmap : ((s.aliens.map fun p => (p.1 + s.step_x * s.direction, p.2)).any
        fun p => decide (WALLS_right - 40 < p.1) ||
          decide (p.1 < WALLS_left + 40)) =
      (s.aliens.any fun p =>
        decide (WALLS_right - 40 < p.1 + s.step_x * s.direction) ||
        decide (p.1 + s.step_x * s.direction < WALLS_left + 40)) := by
    rw [List.any_map]
    rfl
  rw [hmap]
  split
  · rename_i hdesc
    refine ⟨?_, ?_, ?_⟩
    · simp only [hdesc, if_pos]
      rw [List.map_map]
      exact List.map_congr_left fun p _ => by
        simp [sub_eq_add_neg]
    · simp only [hdesc, if_pos]
      show s.direction * (-1) = -s.direction
      ring
    · simp only [hdesc, iff_true]
      show s.direction * (-1) ≠ s.direction
      intro hcon
      apply hdir
      linarith
  · rename_i hdesc
    have hdesc' : (s.aliens.any fun p =>
        decide (WALLS_right - 40 < p.1 + s.step_x * s.direction) ||
        decide (p.1 + s.step_x * s.direction < WALLS_left + 40)) = false := by
      simpa using hdesc
    refine ⟨?_, ?_, ?_⟩
    · simp only [hdesc', if_neg, Bool.false_eq_true, ite_false]
      simp
    · simp [hdesc']
    · simp [hdesc']

/-- Claim C6 witness: a running one-alien swarm at the origin stepping
right. -/
theorem C6_witness :
    (Aliens.move_aliens ⟨true, 1, 10, 10, 0, 0, [(0, 0)], [], 0⟩).aliens =
      ([(0, 0)] : List (ℚ × ℚ)).map
        (fun p => (p.1 + 10 * 1,
          p.2 + (if ([(0, 0)] : List (ℚ × ℚ)).any fun p =>
              decide (WALLS_right - 40 < p.1 + 10 * 1) ||
              decide (p.1 + 10 * 1 < WALLS_left + 40)
            then -10 else 0))) ∧
    (Aliens.move_aliens ⟨true, 1, 10, 10, 0, 0, [(0, 0)], [], 0⟩).direction =
      (if ([(0, 0)] : List (ℚ × ℚ)).any fun p =>
          decide (WALLS_right - 40 < p.1 + 10 * 1) ||
          decide (p.1 + 10 * 1 < WALLS_left + 40)
        then -1 else 1) ∧
    (((Aliens.move_aliens
        ⟨true, 1, 10, 10, 0, 0, [(0, 0)], [], 0⟩).direction ≠ 1) ↔
      (([(0, 0)] : List (ℚ × ℚ)).any fun p =>
          decide (WALLS_right - 40 < p.1 + 10 * 1) ||
          decide (p.1 + 10 * 1 < WALLS_left + 40)) = true) :=
  C6_swarm_lockstep ⟨true, 1, 10, 10, 0, 0, [(0, 0)], [], 0⟩ rfl
    (by simp) (by norm_num)

/-- Soundness of the inner scan of `check_lasers_vs_targets`: a returned
target is the first unconsumed in-range target in list order. -/
theorem scanTargets_isFirstMatch {l : Laser} {ts : List Target}
    {hit : List ℕ} {th : ℚ} {t : Target}
    (h : CheckHit.scanTargets l ts hit th = some t) :
    IsFirstMatch l ts hit th t := by
  induction ts with
  | nil => simp [CheckHit.scanTargets] at h
  | cons t0 rest ih =>
    rw [CheckHit.scanTargets] at h
    by_cases h0 : t0.id ∈ hit
    · rw [if_pos h0] at h
      obtain ⟨pre, post, heq, hnc, hd, hpre⟩ := ih h
      refine ⟨t0 :: pre, post, ?_, hnc, hd, ?_⟩
      · rw [heq]
        rfl
      · intro u hu
        rcases List.mem_cons.mp hu with hu0 | hu'
        · exact Or.inl (hu0 ▸ h0)
        · exact hpre u hu'
    · rw [if_neg h0] at h
      rcases Bool.eq_false_or_eq_true (distLt t0.pos l.pos th) with hd | hd
      · rw [hd] at h
        have h' : some t0 = some t := h
        obtain rfl : t0 = t := Option.some.inj h'
        exact ⟨[], rest, rfl, h0, hd, by intro u hu; simp at hu⟩
      · rw [hd] at h
        have h' : CheckHit.scanTargets l rest hit th = some t := h
        obtain ⟨pre, post, heq, hnc, hd', hpre⟩ := ih h'
        refine ⟨t0 :: pre, post, ?_, hnc, hd', ?_⟩
        · rw [heq]
          rfl
        · intro u hu
          rcases List.mem_cons.mp hu with hu0 | hu'
          · exact Or.inr (hu0 ▸ hd)
          · exact hpre u hu'

/-- Every target id matched by `clvtAux` is fresh with respect to the
incoming consumed set. -/
theorem clvtAux_ids_fresh (ts : List Target) (th : ℚ) :
    ∀ (lasers : List Laser) (hit : List ℕ),
      ∀ x ∈ ((CheckHit.clvtAux lasers ts hit th).map fun p => p.2.id),
        x ∉ hit := by
  intro lasers
  induction lasers with
  | nil => intro hit x hx; simp [CheckHit.clvtAux] at hx
  | cons l rest ih =>
    intro hit x hx
    rw [CheckHit.clvtAux] at hx
    by_cases ha : l.active = true
    · rw [if_pos ha] at hx
      cases hscan : CheckHit.scanTargets l ts hit th with
      | none => rw [hscan] at hx; exact ih hit x hx
      | some t =>
        rw [hscan] at hx
        rcases List.mem_cons.mp hx with hx0 | hx'
        · obtain ⟨pre, post, heq, hnc, hd, hpre⟩ :=
            scanTargets_isFirstMatch hscan
          exact hx0 ▸ hnc
        · intro hmem
          exact ih (t.id :: hit) x hx' (List.mem_cons_of_mem _ hmem)
    · rw [if_neg ha] at hx
      exact ih hit x hx

/-- The target ids matched by `clvtAux` are pairwise distinct. -/
theorem clvtAux_ids_nodup (ts : List Target) (th : ℚ) :
    ∀ (lasers : List Laser) (hit : List ℕ),
      ((CheckHit.clvtAux lasers ts hit th).map fun p => p.2.id).Nodup := by
  intro lasers
  induction lasers with
  | nil => intro hit; simp [CheckHit.clvtAux]
  | cons l rest ih =>
    intro hit
    rw [CheckHit.clvtAux]
    by_cases ha : l.active = true
    · rw [if_pos ha]
      cases hscan : CheckHit.scanTargets l ts hit th with
      | none => exact ih hit
      | some t =>
        simp only [List.map_cons, List.nodup_cons]
        refine ⟨?_, ih (t.id :: hit)⟩
        intro hmem
        exact clvtAux_ids_fresh ts th rest (t.id :: hit) t.id hmem
          (List.mem_cons_self _ _)
    · rw [if_neg ha]
      exact ih hit

/-- The lasers of the pairs returned by `clvtAux` form a sublist of the
active input lasers (order-preserving, one pair per laser occurrence). -/
theorem clvtAux_fst_sublist (ts : List Target) (th : ℚ) :
    ∀ (lasers : List Laser) (hit : List ℕ),
      List.Sublist ((CheckHit.clvtAux lasers ts hit th).map Prod.fst)
        (lasers.filter fun l => l.active) := by
  intro lasers
  induction lasers with
  | nil => intro hit; simp [CheckHit.clvtAux]
  | cons l rest ih =>
    intro hit
    rw [CheckHit.clvtAux, List.filter_cons]
    by_cases ha : l.active = true
    · rw [if_pos ha, if_pos ha]
      cases hscan : CheckHit.scanTargets l ts hit th with
      | none => exact List.Sublist.cons l (ih hit)
      | some t =>
        simp only [List.map_cons]
        exact List.Sublist.cons₂ l (ih (t.id :: hit))
    · rw [if_neg ha, if_neg ha]
      exact ih hit

/-- Only active lasers contribute pairs in `clvtAux`. -/
theorem clvtAux_all_active (ts : List Target) (th : ℚ) :
    ∀ (lasers : List Laser) (hit : List ℕ),
      ∀ p ∈ CheckHit.clvtAux lasers ts hit th, p.1.active = true := by
  intro lasers
  induction lasers with
  | nil => intro hit p hp; simp [CheckHit.clvtAux] at hp
  | cons l rest ih =>
    intro hit p hp
    rw [CheckHit.clvtAux] at hp
    by_cases ha : l.active = true
    · rw [if_pos ha] at hp
      cases hscan : CheckHit.scanTargets l ts hit th with
      | none => rw [hscan] at hp; exact ih hit p hp
      | some t =>
        rw [hscan] at hp
        rcases List.mem_cons.mp hp with hp0 | hp'
        · rw [hp0]
          exact ha
        · exact ih (t.id :: hit) p hp'
    · rw [if_neg ha] at hp
      exact ih hit p hp

/-- Membership-equivalent consumed sets validate the same first matches. -/
theorem IsFirstMatch_of_mem_iff {l : Laser} {ts : List Target}
    {c c' : List ℕ} {th : ℚ} {t : Target}
    (hm : ∀ x, x ∈ c ↔ x ∈ c') (h : IsFirstMatch l ts c th t) :
    IsFirstMatch l ts c' th t := by
  obtain ⟨pre, post, heq, hnc, hd, hpre⟩ := h
  refine ⟨pre, post, heq, fun hx => hnc ((hm _).mpr hx), hd, ?_⟩
  intro u hu
  rcases hpre u hu with h1 | h2
  · exact Or.inl ((hm _).mp h1)
  · exact Or.inr h2

/-- Each pair returned by `clvtAux` matches the first target that is in
range and not consumed by the earlier pairs of the same call. -/
theorem clvtAux_first (ts : List Target) (th : ℚ) :
    ∀ (lasers : List Laser) (hit : List ℕ) (i : ℕ) (p : Laser × Target),
      (CheckHit.clvtAux lasers ts hit th).get? i = some p →
      IsFirstMatch p.1 ts
        (hit ++ ((CheckHit.clvtAux lasers ts hit th).take i).map
          fun q => q.2.id) th p.2 := by
  intro lasers
  induction lasers with
  | nil => intro hit i p hp; simp [CheckHit.clvtAux] at hp
  | cons l rest ih =>
    intro hit i p hp
    rw [CheckHit.clvtAux] at hp ⊢
    by_cases ha : l.active = true
    · rw [if_pos ha] at hp ⊢
      cases hscan : CheckHit.scanTargets l ts hit th with
      | none =>
        rw [hscan] at hp
        exact ih hit i p hp
      | some t =>
        rw [hscan] at hp
        have hp' : ((l, t) ::
            CheckHit.clvtAux rest ts (t.id :: hit) th).get? i = some p := hp
        show IsFirstMatch p.1 ts
          (hit ++ (((l, t) ::
            CheckHit.clvtAux rest ts (t.id :: hit) th).take i).map
              fun q => q.2.id) th p.2
        cases i with
        | zero =>
          obtain rfl : (l, t) = p := Option.some.inj hp'
          rw [List.take_zero, List.map_nil, List.append_nil]
          exact scanTargets_isFirstMatch hscan
        | succ j =>
          rw [List.get?_cons_succ] at hp'
          have hIH := ih (t.id :: hit) j p hp'
          rw [List.take_succ_cons, List.map_cons]
          refine IsFirstMatch_of_mem_iff ?_ hIH
          intro x
          simp only [List.mem_append, List.mem_cons]
          tauto
    · rw [if_neg ha] at hp ⊢
      exact ih hit i p hp

/-- Claim C3.  For every call to `check_lasers_vs_targets`: no target
appears in more than one returned pair; the paired lasers form a sublist
of the active input lasers, so pairs preserve the input laser order and
each laser occurrence matches at most once; inactive lasers produce no
pairs; and the `i`-th pair's target is the first target in list order that
is within the threshold and not consumed by the earlier pairs of the same
call. -/
theorem C3_lasers_vs_targets_exclusive_first_match (lasers : List Laser)
    (targets : List Target) (threshold : ℚ) :
    ((CheckHit.check_lasers_vs_targets lasers targets threshold).map
      fun p => p.2.id).Nodup ∧
    List.Sublist
      ((CheckHit.check_lasers_vs_targets lasers targets threshold).map
        Prod.fst)
      (lasers.filter fun l => l.active) ∧
    (∀ p ∈ CheckHit.check_lasers_vs_targets lasers targets threshold,
      p.1.active = true) ∧
    (∀ (i : ℕ) (p : Laser × Target),
      (CheckHit.check_lasers_vs_targets lasers targets threshold).get? i =
        some p →
      IsFirstMatch p.1 targets
        (((CheckHit.check_lasers_vs_targets lasers targets threshold).take
          i).map fun q => q.2.id) threshold p.2) := by
  refine ⟨clvtAux_ids_nodup targets threshold lasers [],
    clvtAux_fst_sublist targets threshold lasers [],
    clvtAux_all_active targets threshold lasers [], ?_⟩
  intro i p hp
  have h := clvtAux_first targets threshold lasers [] i p hp
  rwa [List.nil_append] at h

/-- Soundness of the inner scan of `check_laser_vs_laser`: a returned
enemy laser is the first active in-range one in list order. -/
theorem scanEnemyLasers_isFirstEnemyHit {p : Laser} {es : List Laser}
    {e : Laser} (h : CheckHit.scanEnemyLasers p es = some e) :
    IsFirstEnemyHit p es e := by
  induction es with
  | nil => simp [CheckHit.scanEnemyLasers] at h
  | cons e0 rest ih =>
    rw [CheckHit.scanEnemyLasers] at h
    by_cases ha : e0.active = true
    · rw [if_pos ha] at h
      rcases Bool.eq_false_or_eq_true (distLt p.pos e0.pos 10) with hd | hd
      · rw [hd] at h
        have h' : some e0 = some e := h
        obtain rfl : e0 = e := Option.some.inj h'
        exact ⟨[], rest, rfl, ha, hd, by intro u hu; simp at hu⟩
      · rw [hd] at h
        have h' : CheckHit.scanEnemyLasers p rest = some e := h
        obtain ⟨pre, post, heq, hact, hd', hpre⟩ := ih h'
        refine ⟨e0 :: pre, post, ?_, hact, hd', ?_⟩
        · rw [heq]
          rfl
        · intro u hu
          rcases List.mem_cons.mp hu with hu0 | hu'
          · exact Or.inr (hu0 ▸ hd)
          · exact hpre u hu'
    · rw [if_neg ha] at h
      obtain ⟨pre, post, heq, hact, hd', hpre⟩ := ih h
      refine ⟨e0 :: pre, post, ?_, hact, hd', ?_⟩
      · rw [heq]
        rfl
      · intro u hu
        rcases List.mem_cons.mp hu with hu0 | hu'
        · exact Or.inl (hu0 ▸ Bool.eq_false_iff.mpr ha)
        · exact hpre u hu'

/-- Claim C2, counterexample.  Two active player lasers and one active enemy
laser, all at the origin: `check_laser_vs_laser` returns *two* pairs both
holding the same enemy laser (id 2), because — unlike
`check_lasers_vs_targets` — it keeps no consumed set.  The pairing is
therefore not one-to-one, refuting the claim. -/
theorem C2_counterexample_shared_enemy_laser :
    ¬ ((CheckHit.check_laser_vs_laser
        [⟨0, (0, 0), true, true⟩, ⟨1, (0, 0), true, true⟩]
        [⟨2, (0, 0), true, true⟩]).map fun q => q.2.id).Nodup := by
  have h : ((CheckHit.check_laser_vs_laser
      [⟨0, (0, 0), true, true⟩, ⟨1, (0, 0), true, true⟩]
      [⟨2, (0, 0), true, true⟩]).map fun q => q.2.id) = [2, 2] := by
    norm_num [CheckHit.check_laser_vs_laser, CheckHit.scanEnemyLasers,
      distLt]
  rw [h]
  decide

/-- Claim C2, amended.  For every call to `check_laser_vs_laser`: the paired
player lasers form a sublist of the active player lasers (one pair per
player-laser occurrence, in input order), and each pair holds the first
active enemy laser within 10 units of that player laser; but nothing
prevents the same enemy laser from appearing in several pairs. -/
theorem C2_laser_vs_laser_first_match_amended (ps es : List Laser) :
    List.Sublist ((CheckHit.check_laser_vs_laser ps es).map Prod.fst)
      (ps.filter fun l => l.active) ∧
    ∀ pr ∈ CheckHit.check_laser_vs_laser ps es,
      pr.1.active = true ∧ IsFirstEnemyHit pr.1 es pr.2 := by
  induction ps with
  | nil =>
    exact ⟨by simp [CheckHit.check_laser_vs_laser],
      by simp [CheckHit.check_laser_vs_laser]⟩
  | cons p rest ih =>
    rw [CheckHit.check_laser_vs_laser, List.filter_cons]
    by_cases ha : p.active = true
    · rw [if_pos ha, if_pos ha]
      cases hscan : CheckHit.scanEnemyLasers p es with
      | none => exact ⟨List.Sublist.cons p ih.1, ih.2⟩
      | some e =>
        refine ⟨?_, ?_⟩
        · simp only [List.map_cons]
          exact List.Sublist.cons₂ p ih.1
        · intro pr hpr
          rcases List.mem_cons.mp hpr with h0 | h'
          · rw [h0]
            exact ⟨ha, scanEnemyLasers_isFirstEnemyHit hscan⟩
          · exact ih.2 pr h'
    · rw [if_neg ha, if_neg ha]
      exact ih

/-- Unfolding equation for the block component of `passBlocks`. -/
theorem passBlocks_fst_cons (l : Laser) (b : ShieldBlock)
    (rest : List ShieldBlock) :
    (ShieldGenerator.passBlocks l (b :: rest)).1 =
      if b.active && distLt l.pos b.pos 15 then
        b.take_damage ::
          (ShieldGenerator.passBlocks
            { l with active := false, visible := false } rest).1
      else
        b :: (ShieldGenerator.passBlocks l rest).1 := by
  rw [ShieldGenerator.passBlocks]
  by_cases hc : (b.active && distLt l.pos b.pos 15) = true
  · rw [if_pos hc, if_pos hc]
  · rw [if_neg hc, if_neg hc]

/-- The block damage done by one laser's shield scan depends only on the
laser's position — not on its `active` or `visible` flags. -/
theorem passBlocks_fst_pos_eq :
    ∀ (blocks : List ShieldBlock) (l l' : Laser), l.pos = l'.pos →
      (ShieldGenerator.passBlocks l blocks).1 =
      (ShieldGenerator.passBlocks l' blocks).1 := by
  intro blocks
  induction blocks with
  | nil => intro l l' h; rfl
  | cons b rest ih =>
    intro l l' h
    rw [passBlocks_fst_cons, passBlocks_fst_cons, h]
    by_cases hc : (b.active && distLt l'.pos b.pos 15) = true
    · rw [if_pos hc, if_pos hc]
      exact congrArg _ (ih _ _ rfl)
    · rw [if_neg hc, if_neg hc]
      exact congrArg _ (ih _ _ h)

/-- Unfolding equation for the block component of the shield pass. -/
theorem check_collision_fst_cons (blocks : List ShieldBlock) (l : Laser)
    (rest : List Laser) :
    (ShieldGenerator.check_collision blocks (l :: rest)).1 =
      (ShieldGenerator.check_collision
        (ShieldGenerator.passBlocks l blocks).1 rest).1 := by
  rw [ShieldGenerator.check_collision]

/-- Claim C1, counterexample.  A laser whose `active` flag is already
`false` (deactivated earlier in the tick, e.g. by the alien-hit check of
`game_loop`) sits on a fresh shield block: the shield pass still damages
the block (hp drops from 3 to 2), because
`ShieldGenerator.check_collision` tests only `block.active`, never
`laser.active`.  This refutes the claim that a deactivated projectile
participates in no later collision check of the tick. -/
theorem C1_counterexample_inactive_laser_damages_block :
    (⟨0, (0, 0), false, false⟩ : Laser).active = false ∧
    ((ShieldGenerator.check_collision [ShieldBlock.init (0, 0)]
        [⟨0, (0, 0), false, false⟩]).1.map ShieldBlock.hp) = [2] := by
  refine ⟨rfl, ?_⟩
  norm_num [ShieldGenerator.check_collision, ShieldGenerator.passBlocks,
    ShieldBlock.init, ShieldBlock.take_damage, distLt]

/-- Claim C1, amended.  Within a tick, the ship-hit, alien-hit, boss-hit and
laser-vs-laser passes gate participation on the projectile's `active`
flag (proved in the C2/C3 theorems), but the shield-block pass does not:
its effect on the blocks is invariant under arbitrarily rewriting every
laser's `active` and `visible` flags, so a projectile deactivated earlier
in the same tick is still collision-resolved against shield blocks. -/
theorem C1_shield_pass_ignores_laser_flags (blocks : List ShieldBlock)
    (lasers : List Laser) (f g : Laser → Bool) :
    (ShieldGenerator.check_collision blocks
      (lasers.map fun l => { l with active := f l, visible := g l })).1 =
    (ShieldGenerator.check_collision blocks lasers).1 := by
  induction lasers generalizing blocks with
  | nil => rfl
  | cons l rest ih =>
    simp only [List.map_cons]
    rw [check_collision_fst_cons, check_collision_fst_cons]
    have hfst : (ShieldGenerator.passBlocks
        { l with active := f l, visible := g l } blocks).1 =
        (ShieldGenerator.passBlocks l blocks).1 :=
      passBlocks_fst_pos_eq blocks _ _ rfl
    rw [hfst]
    exact ih _

end SpaceInvaders
